import Mathlib

/-!
Verification of the ILP commitment/validation core of
mojaloop-sdk-standard-components.

The repository ships the unit tests (src/test/unit/ilp.test.js), the type
declarations and the HTTP request classes, but the ILP core itself
(src/lib/ilp.js) is not among the provided source files.  Every definition
below that embeds that missing core therefore carries a doc comment starting
with "Modelled from the spec:" and follows the specification text
(spec.md sections 3, 4, 6 and 8) for that component.

Conventions of the shallow embedding:
* bytes are Nat values, with validity side conditions b < 256 where a byte
  buffer is meant;
* JavaScript strings are Lean String values; converting a string to its
  UTF-8 bytes is modelled by mapping Char.toNat over the character list,
  which is exact for the ASCII data handled by this core, and the converse
  direction maps Char.ofNat;
* fallible operations return Except IlpError or Option;
* all definitions are executable, so witnesses evaluate by kernel reduction.
-/

set_option maxRecDepth 1000000

namespace MojaloopIlp

/-! ## Generic Option-valued map -/

/-- Map a fallible function over a list, failing if any element fails. -/
def mapOpt {α β : Type} (f : α → Option β) : List α → Option (List β)
  | [] => some []
  | a :: as =>
    match f a with
    | none => none
    | some b =>
      match mapOpt f as with
      | none => none
      | some bs => some (b :: bs)

/-! ## Base64 and base64url codecs

Modelled from the spec: the IlpPacket travels as an opaque base64 string and
the Fulfillment and Condition as base64url strings (spec sections 3 and 6).
The encodings are unpadded; 3-byte groups become 4 alphabet characters, a
trailing 2-byte group becomes 3 characters and a trailing single byte
becomes 2 characters. -/

/-- Turn a byte list into the list of 6-bit base64 digit values. -/
def b64EncIdx : List Nat → List Nat
  | [] => []
  | [b1] => [b1 / 4, b1 % 4 * 16]
  | [b1, b2] => [b1 / 4, b1 % 4 * 16 + b2 / 16, b2 % 16 * 4]
  | b1 :: b2 :: b3 :: rest =>
    b1 / 4 :: (b1 % 4 * 16 + b2 / 16) :: (b2 % 16 * 4 + b3 / 64) :: b3 % 64 :: b64EncIdx rest

/-- Turn a list of 6-bit base64 digit values back into bytes.  A leftover
group of a single digit value is malformed. -/
def b64DecIdx : List Nat → Option (List Nat)
  | [] => some []
  | [_] => none
  | [i1, i2] => some [i1 * 4 + i2 / 16]
  | [i1, i2, i3] => some [i1 * 4 + i2 / 16, i2 % 16 * 16 + i3 / 4]
  | i1 :: i2 :: i3 :: i4 :: rest =>
    match b64DecIdx rest with
    | none => none
    | some bs => some ((i1 * 4 + i2 / 16) :: (i2 % 16 * 16 + i3 / 4) :: (i3 % 4 * 64 + i4) :: bs)

/-- The character of a 6-bit value in the standard base64 alphabet. -/
def b64CharStd (i : Nat) : Char :=
  if i < 26 then Char.ofNat (65 + i)
  else if i < 52 then Char.ofNat (97 + (i - 26))
  else if i < 62 then Char.ofNat (48 + (i - 52))
  else if i = 62 then '+'
  else '/'

/-- The 6-bit value of a standard base64 alphabet character, none for a
character outside the alphabet. -/
def b64IdxStd (c : Char) : Option Nat :=
  if 65 ≤ c.toNat ∧ c.toNat ≤ 90 then some (c.toNat - 65)
  else if 97 ≤ c.toNat ∧ c.toNat ≤ 122 then some (c.toNat - 97 + 26)
  else if 48 ≤ c.toNat ∧ c.toNat ≤ 57 then some (c.toNat - 48 + 52)
  else if c = '+' then some 62
  else if c = '/' then some 63
  else none

/-- The character of a 6-bit value in the base64url alphabet. -/
def b64CharUrl (i : Nat) : Char :=
  if i < 26 then Char.ofNat (65 + i)
  else if i < 52 then Char.ofNat (97 + (i - 26))
  else if i < 62 then Char.ofNat (48 + (i - 52))
  else if i = 62 then '-'
  else '_'

/-- The 6-bit value of a base64url alphabet character, none for a character
outside the alphabet. -/
def b64IdxUrl (c : Char) : Option Nat :=
  if 65 ≤ c.toNat ∧ c.toNat ≤ 90 then some (c.toNat - 65)
  else if 97 ≤ c.toNat ∧ c.toNat ≤ 122 then some (c.toNat - 97 + 26)
  else if 48 ≤ c.toNat ∧ c.toNat ≤ 57 then some (c.toNat - 48 + 52)
  else if c = '-' then some 62
  else if c = '_' then some 63
  else none

/-- Standard base64 encoding of a byte list. -/
def b64EncodeStd (bs : List Nat) : List Char := (b64EncIdx bs).map b64CharStd

/-- Standard base64 decoding of a character list. -/
def b64DecodeStd (cs : List Char) : Option (List Nat) :=
  match mapOpt b64IdxStd cs with
  | none => none
  | some idxs => b64DecIdx idxs

/-- base64url encoding of a byte list. -/
def b64EncodeUrl (bs : List Nat) : List Char := (b64EncIdx bs).map b64CharUrl

/-- base64url decoding of a character list. -/
def b64DecodeUrl (cs : List Char) : Option (List Nat) :=
  match mapOpt b64IdxUrl cs with
  | none => none
  | some idxs => b64DecIdx idxs

/-! ## SHA-256 and HMAC-SHA256

Modelled from the spec: the ConditionGenerator derives the Fulfillment as a
keyed message authentication code (HMAC) over the packet bytes with the held
secret as key, sized to exactly 32 bytes, and the Condition as a fixed
cryptographic hash of the Fulfillment's raw bytes (spec section 4.3).  The
concrete primitives live in the missing lib/ilp.js; they are modelled here
as FIPS 180-4 SHA-256 and RFC 2104 HMAC-SHA256, whose 32-byte digests match
the sizes the spec fixes.  All arithmetic is Nat with explicit reduction
modulo 2 ^ 32. -/

/-- Addition modulo 2 ^ 32. -/
def add32 (a b : Nat) : Nat := (a + b) % 4294967296

/-- Rotate the low 32 bits of a word right by n positions. -/
def rotr32 (n x : Nat) : Nat := x / 2 ^ n + x % 2 ^ n * 2 ^ (32 - n)

/-- Shift the low 32 bits of a word right by n positions. -/
def shr32 (n x : Nat) : Nat := x / 2 ^ n

/-- Bitwise complement of a 32-bit word. -/
def not32 (x : Nat) : Nat := x ^^^ 4294967295

/-- The SHA-256 choice function. -/
def ch32 (x y z : Nat) : Nat := (x &&& y) ^^^ (not32 x &&& z)

/-- The SHA-256 majority function. -/
def maj32 (x y z : Nat) : Nat := (x &&& y) ^^^ (x &&& z) ^^^ (y &&& z)

/-- The SHA-256 big sigma-0 function. -/
def bsig0 (x : Nat) : Nat := rotr32 2 x ^^^ rotr32 13 x ^^^ rotr32 22 x

/-- The SHA-256 big sigma-1 function. -/
def bsig1 (x : Nat) : Nat := rotr32 6 x ^^^ rotr32 11 x ^^^ rotr32 25 x

/-- The SHA-256 small sigma-0 function. -/
def ssig0 (x : Nat) : Nat := rotr32 7 x ^^^ rotr32 18 x ^^^ shr32 3 x

/-- The SHA-256 small sigma-1 function. -/
def ssig1 (x : Nat) : Nat := rotr32 17 x ^^^ rotr32 19 x ^^^ shr32 10 x

/-- The 64 SHA-256 round constants. -/
def shaK : List Nat :=
  [1116352408, 1899447441, 3049323471, 3921009573, 961987163, 1508970993,
   2453635748, 2870763221, 3624381080, 310598401, 607225278, 1426881987,
   1925078388, 2162078206, 2614888103, 3248222580, 3835390401, 4022224774,
   264347078, 604807628, 770255983, 1249150122, 1555081692, 1996064986,
   2554220882, 2821834349, 2952996808, 3210313671, 3336571891, 3584528711,
   113926993, 338241895, 666307205, 773529912, 1294757372, 1396182291,
   1695183700, 1986661051, 2177026350, 2456956037, 2730485921, 2820302411,
   3259730800, 3345764771, 3516065817, 3600352804, 4094571909, 275423344,
   430227734, 506948616, 659060556, 883997877, 958139571, 1322822218,
   1537002063, 1747873779, 1955562222, 2024104815, 2227730452, 2361852424,
   2428436474, 2756734187, 3204031479, 3329325298]

/-- The SHA-256 initial hash state. -/
def shaH0 : List Nat :=
  [1779033703, 3144134277, 1013904242, 2773480762,
   1359893119, 2600822924, 528734635, 1541459225]

/-- Group bytes into 32-bit words, big endian. -/
def toWordsBE : List Nat → List Nat
  | a :: b :: c :: d :: rest => (a * 16777216 + b * 65536 + c * 256 + d) :: toWordsBE rest
  | _ => []

/-- The four bytes of a 32-bit word, big endian. -/
def wordBytesBE (n : Nat) : List Nat :=
  [n / 16777216 % 256, n / 65536 % 256, n / 256 % 256, n % 256]

/-- The eight bytes of a 64-bit length field, big endian. -/
def lenBytes64 (n : Nat) : List Nat :=
  [n / 2 ^ 56 % 256, n / 2 ^ 48 % 256, n / 2 ^ 40 % 256, n / 2 ^ 32 % 256,
   n / 2 ^ 24 % 256, n / 2 ^ 16 % 256, n / 2 ^ 8 % 256, n % 256]

/-- SHA-256 message padding: append the 0x80 marker, zeros to 56 mod 64, and
the bit length as a 64-bit big-endian integer. -/
def sha256pad (msg : List Nat) : List Nat :=
  msg ++ 128 :: List.replicate ((119 - msg.length % 64) % 64) 0 ++ lenBytes64 (msg.length * 8)

/-- Extend the 16 words of a block to the 64-entry SHA-256 message schedule. -/
def buildW (w16 : List Nat) : List Nat :=
  (List.range 48).foldl
    (fun w i =>
      w ++ [add32 (add32 (ssig1 (w.getD (i + 14) 0)) (w.getD (i + 9) 0))
                  (add32 (ssig0 (w.getD (i + 1) 0)) (w.getD i 0))])
    w16

/-- One round of the SHA-256 compression function on the 8-word state. -/
def shaStep (w : List Nat) (st : List Nat) (i : Nat) : List Nat :=
  let a := st.getD 0 0
  let b := st.getD 1 0
  let c := st.getD 2 0
  let d := st.getD 3 0
  let e := st.getD 4 0
  let f := st.getD 5 0
  let g := st.getD 6 0
  let h := st.getD 7 0
  let t1 := add32 h (add32 (bsig1 e) (add32 (ch32 e f g) (add32 (shaK.getD i 0) (w.getD i 0))))
  let t2 := add32 (bsig0 a) (maj32 a b c)
  [add32 t1 t2, a, b, c, add32 d t1, e, f, g]

/-- Compress one 64-byte block into the running hash state. -/
def compressBlock (h : List Nat) (block : List Nat) : List Nat :=
  let w := buildW (toWordsBE block)
  let s := (List.range 64).foldl (shaStep w) h
  (h.zip s).map (fun p => add32 p.1 p.2)

/-- Split a byte list into 64-byte blocks; the fuel equals the list length so
the recursion is structural and reduces in the kernel. -/
def chunks64Go : Nat → List Nat → List (List Nat)
  | 0, _ => []
  | _, [] => []
  | fuel + 1, x :: rest => ((x :: rest).take 64) :: chunks64Go fuel (rest.drop 63)

/-- Split a byte list into 64-byte blocks. -/
def chunks64 (l : List Nat) : List (List Nat) := chunks64Go l.length l

/-- SHA-256 of a byte list, as a 32-byte list. -/
def sha256 (msg : List Nat) : List Nat :=
  ((chunks64 (sha256pad msg)).foldl compressBlock shaH0).flatMap wordBytesBE

/-- HMAC-SHA256 of a message under a key, as a 32-byte list. -/
def hmacSha256 (key msg : List Nat) : List Nat :=
  let k0 := if 64 < key.length then sha256 key else key
  let kPad := k0 ++ List.replicate (64 - k0.length) 0
  sha256 (kPad.map (fun b => b ^^^ 92) ++ sha256 (kPad.map (fun b => b ^^^ 54) ++ msg))

/-! ## Data model

Modelled from the spec: the QuoteRequest, PartialResponse, TransactionObject
and TransferRequest shapes of spec section 3.  Party descriptors are never
inspected by the core (spec section 9 treats the account field as a fixed
placeholder and spec section 4.4 compares only monetary fields), so payee
and payer are carried as opaque descriptor strings. -/

/-- A monetary value: a currency code and a decimal-string amount. -/
structure Money where
  currency : String
  amount : String
  deriving DecidableEq, Repr

/-- The transaction type triple of a quote request. -/
structure TransactionType where
  scenario : String
  initiator : String
  initiatorType : String
  deriving DecidableEq, Repr

/-- The canonical transaction summary committed to at quote time.  Its amount
is the transferAmount of the partial response. -/
structure TransactionObject where
  transactionId : String
  quoteId : String
  payee : String
  payer : String
  amount : Money
  transactionType : TransactionType
  deriving DecidableEq, Repr

/-- A quote request as handed to the core.  Fields are optional so that the
required-field validation of the assembler is observable. -/
structure QuoteRequest where
  transactionId : Option String
  quoteId : Option String
  payee : Option String
  payer : Option String
  amount : Option Money
  transactionType : Option TransactionType
  deriving DecidableEq, Repr

/-- A partial quote response as handed to the core. -/
structure PartialResponse where
  transferAmount : Option Money
  payeeReceiveAmount : Option Money := none
  payeeFspFee : Option Money := none
  payeeFspCommission : Option Money := none
  expiration : Option String := none
  deriving DecidableEq, Repr

/-- An inbound transfer request: the monetary fields checked by the binding
validator plus the packet and condition it carries.  Routing identifiers of
the wire message are not used by the core and are omitted. -/
structure TransferRequest where
  amount : Money
  ilpPacket : String
  condition : String
  deriving DecidableEq, Repr

/-- The error taxonomy of spec section 7. -/
inductive IlpError where
  | MissingFieldError (field : String)
  | MissingSecretError
  | InvalidAddressError
  | InvalidAmountError
  | PayloadTooLargeError
  | DecodeError
  | MalformedPayloadError
  deriving DecidableEq, Repr

/-- The quote-time result triple of getQuoteResponseIlp. -/
structure IlpCombo where
  fulfilment : String
  ilpPacket : String
  condition : String
  deriving DecidableEq, Repr

/-! ## TransactionAssembler

Modelled from the spec: build(quoteRequest, partialResponse) validates the
presence of the required fields in the fixed order transactionId, quoteId,
payee, payer, transactionType, transferAmount, failing with a
MissingFieldError naming the first absent field, and produces the
TransactionObject whose amount is exactly the transferAmount of the partial
response (spec section 4.1). -/

/-- Assemble the canonical TransactionObject from a quote request and a
partial response. -/
def buildTransactionObject (qr : QuoteRequest) (pr : PartialResponse) :
    Except IlpError TransactionObject :=
  match qr.transactionId with
  | none => .error (.MissingFieldError "transactionId")
  | some tid =>
    match qr.quoteId with
    | none => .error (.MissingFieldError "quoteId")
    | some qid =>
      match qr.payee with
      | none => .error (.MissingFieldError "payee")
      | some payee =>
        match qr.payer with
        | none => .error (.MissingFieldError "payer")
        | some payer =>
          match qr.transactionType with
          | none => .error (.MissingFieldError "transactionType")
          | some tt =>
            match pr.transferAmount with
            | none => .error (.MissingFieldError "transferAmount")
            | some ta =>
              .ok { transactionId := tid, quoteId := qid, payee := payee, payer := payer,
                    amount := ta, transactionType := tt }

/-- The first absent required field in the fixed validation order of the
spec, stated independently of buildTransactionObject. -/
def firstMissingField (qr : QuoteRequest) (pr : PartialResponse) : Option String :=
  if qr.transactionId = none then some "transactionId"
  else if qr.quoteId = none then some "quoteId"
  else if qr.payee = none then some "payee"
  else if qr.payer = none then some "payer"
  else if qr.transactionType = none then some "transactionType"
  else if pr.transferAmount = none then some "transferAmount"
  else none

/-! ## Canonical TransactionObject serialization

Modelled from the spec: the embedded transaction payload is serialized with
a canonical, deterministic key order (spec section 9), and the binding
validator deserializes the packet's data field back into the canonical
TransactionObject representation (spec section 4.4).  The canonical form is
the JSON rendering of the TransactionObject with the fixed key order
transactionId, quoteId, payee, payer, amount, transactionType. -/

/-- Opening literal of the canonical JSON form, up to the transactionId
value. -/
def txoLit1 : List Char := "\x7b\"transactionId\":\"".data

/-- Literal between the transactionId and quoteId values. -/
def txoLit2 : List Char := ",\"quoteId\":\"".data

/-- Literal between the quoteId and payee values. -/
def txoLit3 : List Char := ",\"payee\":\"".data

/-- Literal between the payee and payer values. -/
def txoLit4 : List Char := ",\"payer\":\"".data

/-- Literal between the payer value and the currency of the amount. -/
def txoLit5 : List Char := ",\"amount\":\x7b\"currency\":\"".data

/-- Literal between the currency and amount values of the embedded Money. -/
def txoLit6 : List Char := ",\"amount\":\"".data

/-- Literal between the Money amount value and the scenario of the
transaction type. -/
def txoLit7 : List Char := "\x7d,\"transactionType\":\x7b\"scenario\":\"".data

/-- Literal between the scenario and initiator values. -/
def txoLit8 : List Char := ",\"initiator\":\"".data

/-- Literal between the initiator and initiatorType values. -/
def txoLit9 : List Char := ",\"initiatorType\":\"".data

/-- Closing literal of the canonical JSON form. -/
def txoLit10 : List Char := "\x7d\x7d".data

/-- The canonical JSON rendering of a TransactionObject, as a character
list. -/
def transactionObjectJson (t : TransactionObject) : List Char :=
  txoLit1 ++ (t.transactionId.data ++ '"' ::
  (txoLit2 ++ (t.quoteId.data ++ '"' ::
  (txoLit3 ++ (t.payee.data ++ '"' ::
  (txoLit4 ++ (t.payer.data ++ '"' ::
  (txoLit5 ++ (t.amount.currency.data ++ '"' ::
  (txoLit6 ++ (t.amount.amount.data ++ '"' ::
  (txoLit7 ++ (t.transactionType.scenario.data ++ '"' ::
  (txoLit8 ++ (t.transactionType.initiator.data ++ '"' ::
  (txoLit9 ++ (t.transactionType.initiatorType.data ++ '"' :: txoLit10)))))))))))))))))

/-- Strip an expected literal off the front of a character list, returning the
remainder, or none if the input does not start with the literal. -/
def stripLit : List Char → List Char → Option (List Char)
  | [], l => some l
  | _ :: _, [] => none
  | p :: ps, c :: cs => if c = p then stripLit ps cs else none

/-- Read a quoted JSON string value: the characters up to the next double
quote, and the remainder after that quote. -/
def readQuoted : List Char → Option (List Char × List Char)
  | [] => none
  | c :: cs =>
    if c = '"' then some ([], cs)
    else
      match readQuoted cs with
      | none => none
      | some (pre, rest) => some (c :: pre, rest)

/-- Strip an expected literal, then read the quoted string value after it:
one field of the canonical JSON form. -/
def parseField (lit l : List Char) : Option (List Char × List Char) :=
  match stripLit lit l with
  | none => none
  | some l2 => readQuoted l2

/-- Parse the canonical JSON rendering of a TransactionObject.  Any deviation
from the canonical shape yields none. -/
def parseTransactionObject (l : List Char) : Option TransactionObject :=
  match parseField txoLit1 l with
  | none => none
  | some (tid, l1) =>
  match parseField txoLit2 l1 with
  | none => none
  | some (qid, l2) =>
  match parseField txoLit3 l2 with
  | none => none
  | some (payee, l3) =>
  match parseField txoLit4 l3 with
  | none => none
  | some (payer, l4) =>
  match parseField txoLit5 l4 with
  | none => none
  | some (cur, l5) =>
  match parseField txoLit6 l5 with
  | none => none
  | some (amt, l6) =>
  match parseField txoLit7 l6 with
  | none => none
  | some (scen, l7) =>
  match parseField txoLit8 l7 with
  | none => none
  | some (ini, l8) =>
  match parseField txoLit9 l8 with
  | none => none
  | some (initTy, l9) =>
  if l9 = txoLit10 then
    some { transactionId := String.mk tid, quoteId := String.mk qid,
           payee := String.mk payee, payer := String.mk payer,
           amount := { currency := String.mk cur, amount := String.mk amt },
           transactionType := { scenario := String.mk scen, initiator := String.mk ini,
                                initiatorType := String.mk initTy } }
  else none

/-- A character that the canonical serializer may emit inside a JSON string
value: ASCII, not a double quote and not a backslash. -/
def jsonSafeChar (c : Char) : Bool :=
  decide (c.toNat < 128) && !(c = '"' : Bool) && !(c = '\\' : Bool)

/-- A string all of whose characters are safe inside a JSON string value. -/
def jsonSafeString (s : String) : Bool := s.data.all jsonSafeChar

/-- A TransactionObject all of whose string fields are JSON-safe. -/
def jsonSafeTxo (t : TransactionObject) : Bool :=
  jsonSafeString t.transactionId && jsonSafeString t.quoteId &&
  jsonSafeString t.payee && jsonSafeString t.payer &&
  jsonSafeString t.amount.currency && jsonSafeString t.amount.amount &&
  jsonSafeString t.transactionType.scenario && jsonSafeString t.transactionType.initiator &&
  jsonSafeString t.transactionType.initiatorType

/-! ## PacketCodec

Modelled from the spec: encode(amount, account, data) validates the account
address syntax (non-empty dot-separated segments over a restricted character
set), the amount (a non-empty base-10 integer string within the protocol
digit limit) and the data payload size, then lays the three fields out in a
fixed binary wire structure; decode parses that structure back and fails
with DecodeError on any malformed input (spec section 4.2).  The concrete
layout is a structural tag byte, the length-prefixed amount digits, the
length-prefixed account bytes and the data payload behind a two-byte
big-endian length. -/

/-- The protocol limit on the digit count of the packet amount. -/
def maxAmountDigits : Nat := 20

/-- The protocol limit on the byte length of the data payload. -/
def maxDataLength : Nat := 32767

/-- The protocol limit on the byte length of the account address. -/
def maxAddressLength : Nat := 255

/-- The structural tag byte opening a packet. -/
def packetTag : Nat := 1

/-- An ASCII digit byte. -/
def isDigitByte (b : Nat) : Bool := 48 ≤ b && b ≤ 57

/-- A byte allowed inside an address segment: ASCII letters, digits,
underscore, tilde and hyphen. -/
def isAddrChar (b : Nat) : Bool :=
  (48 ≤ b && b ≤ 57) || (65 ≤ b && b ≤ 90) || (97 ≤ b && b ≤ 122) ||
  b = 95 || b = 126 || b = 45

/-- Split a byte list on the dot byte. -/
def splitDot (l : List Nat) : List (List Nat) :=
  l.foldr
    (fun b acc =>
      if b = 46 then [] :: acc
      else
        match acc with
        | s :: t => (b :: s) :: t
        | [] => [[b]])
    [[]]

/-- Address validity: non-empty, within the length limit, and made of
non-empty dot-separated segments over the restricted character set. -/
def validAddress (acc : List Nat) : Bool :=
  !acc.isEmpty && decide (acc.length ≤ maxAddressLength) &&
  acc.all (fun b => isAddrChar b || decide (b = 46)) &&
  (splitDot acc).all (fun s => !s.isEmpty && s.all isAddrChar)

/-- Amount validity: a non-empty base-10 integer digit string within the
protocol digit limit. -/
def validAmountBytes (a : List Nat) : Bool :=
  !a.isEmpty && decide (a.length ≤ maxAmountDigits) && a.all isDigitByte

/-- The raw wire layout of a packet: tag, length-prefixed amount,
length-prefixed account, two-byte big-endian data length, data. -/
def serializePacket (a acc d : List Nat) : List Nat :=
  packetTag :: a.length :: (a ++ (acc.length :: (acc ++ (d.length / 256 :: d.length % 256 :: d))))

/-- Encode a packet, validating account, amount and payload first.  A data
entry outside the byte range also counts against the payload bound, since it
cannot be laid out as a byte. -/
def encodePacket (a acc d : List Nat) : Except IlpError (List Nat) :=
  if validAddress acc then
    if validAmountBytes a then
      if decide (d.length ≤ maxDataLength) && d.all (· < 256) then
        .ok (serializePacket a acc d)
      else .error .PayloadTooLargeError
    else .error .InvalidAmountError
  else .error .InvalidAddressError

/-- Decode the raw wire layout of a packet.  Any structural deviation -
wrong tag, truncated field, non-byte length field or trailing or missing
payload bytes - is a DecodeError. -/
def decodePacketBytes (p : List Nat) : Except IlpError (List Nat × List Nat × List Nat) :=
  match p with
  | tag :: aLen :: rest =>
    if tag = packetTag ∧ aLen + 1 ≤ rest.length then
      if rest.getD aLen 0 + 2 ≤ (rest.drop (aLen + 1)).length then
        if rest.getD aLen 0 + 2 + ((rest.drop (aLen + 1)).getD (rest.getD aLen 0) 0 * 256 +
              (rest.drop (aLen + 1)).getD (rest.getD aLen 0 + 1) 0) =
            (rest.drop (aLen + 1)).length ∧
            (rest.drop (aLen + 1)).getD (rest.getD aLen 0) 0 < 128 ∧
            (rest.drop (aLen + 1)).getD (rest.getD aLen 0 + 1) 0 < 256 then
          .ok (rest.take aLen, (rest.drop (aLen + 1)).take (rest.getD aLen 0),
               (rest.drop (aLen + 1)).drop (rest.getD aLen 0 + 2))
        else .error .DecodeError
      else .error .DecodeError
    else .error .DecodeError
  | _ => .error .DecodeError

/-! ## ILP operations

Modelled from the spec: the externally visible operations of spec section 6,
with the method names used by the unit tests of the repository.  The secret
is the opaque key material fixed at construction; it appears here as an
explicit parameter of the operations that use it. -/

/-- The fixed, protocol-valid placeholder destination address of the packet
(spec section 9: the account field is a constant, not a routable address). -/
def ilpAddress : List Nat := "g.dfsp".data.map Char.toNat

/-- The protocol-scaled integer amount string of a monetary value: the
decimal amount string with the decimal separator removed, as ASCII bytes. -/
def ilpAmountOf (m : Money) : List Nat :=
  (m.amount.data.filter (fun c => !(c = '.' : Bool))).map Char.toNat

/-- Derive the 32-byte fulfilment from the packet bytes under the secret. -/
def calculateFulfil (secret packetBytes : List Nat) : List Nat :=
  hmacSha256 secret packetBytes

/-- Derive the 32-byte condition from the raw fulfilment bytes. -/
def calculateConditionFromFulfil (fulfilmentBytes : List Nat) : List Nat :=
  sha256 fulfilmentBytes

/-- The data payload embedded in the packet: the canonical JSON rendering of
the TransactionObject, base64 encoded, as ASCII bytes. -/
def packetDataOf (t : TransactionObject) : List Nat :=
  (b64EncodeStd ((transactionObjectJson t).map Char.toNat)).map Char.toNat

/-- Generate the quote-response ILP components: assemble the canonical
TransactionObject, embed it in the packet, and derive the fulfilment and
condition. -/
def getQuoteResponseIlp (secret : List Nat) (qr : QuoteRequest) (pr : PartialResponse) :
    Except IlpError IlpCombo :=
  match buildTransactionObject qr pr with
  | .error e => .error e
  | .ok t =>
    match encodePacket (ilpAmountOf t.amount) ilpAddress (packetDataOf t) with
    | .error e => .error e
    | .ok packetBytes =>
      .ok { fulfilment := String.mk (b64EncodeUrl (calculateFulfil secret packetBytes)),
            ilpPacket := String.mk (b64EncodeStd packetBytes),
            condition :=
              String.mk (b64EncodeUrl (calculateConditionFromFulfil
                (calculateFulfil secret packetBytes))) }

/-- Decode a base64 packet string into its amount, account and data fields.
A string that is not base64, or whose bytes do not parse as the wire
structure, is a DecodeError. -/
def decodeIlpPacket (packet : String) : Except IlpError (List Nat × List Nat × List Nat) :=
  match b64DecodeStd packet.data with
  | none => .error .DecodeError
  | some bytes => decodePacketBytes bytes

/-- Recover the embedded TransactionObject from a base64 packet string: the
data field is read as an ASCII string, base64 decoded, and parsed as the
canonical JSON form.  Wire-structure corruption is a DecodeError; a payload
that does not parse as a TransactionObject is a MalformedPayloadError. -/
def getTransactionObject (packet : String) : Except IlpError TransactionObject :=
  match decodeIlpPacket packet with
  | .error e => .error e
  | .ok (_, _, dataBytes) =>
    match b64DecodeStd (dataBytes.map Char.ofNat) with
    | none => .error .MalformedPayloadError
    | some jsonBytes =>
      match parseTransactionObject (jsonBytes.map Char.ofNat) with
      | none => .error .MalformedPayloadError
      | some t => .ok t

/-- Validate an inbound transfer request against the TransactionObject
embedded in the packet it carries: exact string equality of amount and
currency, a boolean verdict; structural failures propagate as errors. -/
def validateIlpAgainstTransferRequest (tr : TransferRequest) : Except IlpError Bool :=
  match getTransactionObject tr.ilpPacket with
  | .error e => .error e
  | .ok t =>
    .ok (decide (tr.amount.amount = t.amount.amount ∧ tr.amount.currency = t.amount.currency))

/-- Validate a fulfilment against a condition: recompute the condition hash
from the decoded fulfilment bytes and compare it to the decoded condition
bytes for exact equality; malformed base64 on either side is a false
verdict, never an error. -/
def validateFulfil (fulfilment condition : String) : Bool :=
  match b64DecodeUrl fulfilment.data with
  | none => false
  | some fb =>
    match b64DecodeUrl condition.data with
    | none => false
    | some cb => decide (calculateConditionFromFulfil fb = cb)

/-! ## Example values

Concrete inputs mirroring the fixtures of the unit tests, used to
instantiate the theorems on executable data. -/

/-- The example secret: the ASCII bytes of the word test, as in the unit
tests. -/
def secretEx : List Nat := [116, 101, 115, 116]

/-- The example transfer amount committed at quote time. -/
def taEx : Money := { currency := "USD", amount := "99" }

/-- The example transaction type. -/
def ttEx : TransactionType :=
  { scenario := "TRANSFER", initiator := "PAYER", initiatorType := "CONSUMER" }

/-- The example quote request.  Its requested amount differs from the
transfer amount of the partial response. -/
def qrEx : QuoteRequest :=
  { transactionId := some "T1", quoteId := some "Q1", payee := some "P1",
    payer := some "R1", amount := some { currency := "USD", amount := "100" },
    transactionType := some ttEx }

/-- The example partial response. -/
def prEx : PartialResponse := { transferAmount := some taEx }

/-- The example quote request with every field absent. -/
def qrNoneEx : QuoteRequest :=
  { transactionId := none, quoteId := none, payee := none, payer := none,
    amount := none, transactionType := none }

/-- The TransactionObject assembled from the example inputs. -/
def tEx : TransactionObject :=
  { transactionId := "T1", quoteId := "Q1", payee := "P1", payer := "R1",
    amount := taEx, transactionType := ttEx }

/-- The raw packet bytes generated from the example inputs. -/
def packetBytesEx : List Nat :=
  serializePacket (ilpAmountOf taEx) ilpAddress (packetDataOf tEx)

/-- The quote-response components generated from the example inputs. -/
def comboEx : IlpCombo :=
  { fulfilment := String.mk (b64EncodeUrl (calculateFulfil secretEx packetBytesEx)),
    ilpPacket := String.mk (b64EncodeStd packetBytesEx),
    condition := String.mk (b64EncodeUrl (calculateConditionFromFulfil
      (calculateFulfil secretEx packetBytesEx))) }

/-- A transfer request carrying the example packet and the committed
amount. -/
def trGoodEx : TransferRequest :=
  { amount := taEx, ilpPacket := comboEx.ilpPacket, condition := comboEx.condition }

/-- The same transfer request with only the amount string changed. -/
def trBadEx : TransferRequest :=
  { amount := { currency := "USD", amount := "200" }, ilpPacket := comboEx.ilpPacket,
    condition := comboEx.condition }

/-- A transfer request carrying a packet string that is not base64. -/
def trMalformedEx : TransferRequest :=
  { amount := taEx, ilpPacket := "!!", condition := "" }

/-! ## Lemmas: base64 and base64url -/

theorem b64EncIdx_lt64 :
    ∀ bs : List Nat, (∀ b ∈ bs, b < 256) → ∀ i ∈ b64EncIdx bs, i < 64
  | [], _ => by simp [b64EncIdx]
  | [b1], h => by
    have h1 : b1 < 256 := h b1 (by simp)
    simp only [b64EncIdx, List.mem_cons, List.not_mem_nil, or_false]
    rintro i (rfl | rfl) <;> omega
  | [b1, b2], h => by
    have h1 : b1 < 256 := h b1 (by simp)
    have h2 : b2 < 256 := h b2 (by simp)
    simp only [b64EncIdx, List.mem_cons, List.not_mem_nil, or_false]
    rintro i (rfl | rfl | rfl) <;> omega
  | b1 :: b2 :: b3 :: b4 :: rest, h => by
    have h1 : b1 < 256 := h b1 (by simp)
    have h2 : b2 < 256 := h b2 (by simp)
    have h3 : b3 < 256 := h b3 (by simp)
    have ih := b64EncIdx_lt64 (b4 :: rest) (fun b hb => h b (by simp [List.mem_cons] at hb ⊢; tauto))
    simp only [b64EncIdx, List.mem_cons]
    rintro i (rfl | rfl | rfl | rfl | hi)
    · omega
    · omega
    · omega
    · omega
    · exact ih i hi
  | [b1, b2, b3], h => by
    have h1 : b1 < 256 := h b1 (by simp)
    have h2 : b2 < 256 := h b2 (by simp)
    have h3 : b3 < 256 := h b3 (by simp)
    simp only [b64EncIdx, List.mem_cons, List.not_mem_nil, or_false]
    rintro i (rfl | rfl | rfl | rfl) <;> omega

theorem b64DecIdx_encIdx :
    ∀ bs : List Nat, (∀ b ∈ bs, b < 256) → b64DecIdx (b64EncIdx bs) = some bs
  | [], _ => rfl
  | [b1], h => by
    have h1 : b1 < 256 := h b1 (by simp)
    simp only [b64EncIdx, b64DecIdx]
    have e1 : b1 / 4 * 4 + b1 % 4 * 16 / 16 = b1 := by omega
    rw [e1]
  | [b1, b2], h => by
    have h1 : b1 < 256 := h b1 (by simp)
    have h2 : b2 < 256 := h b2 (by simp)
    simp only [b64EncIdx, b64DecIdx]
    have e1 : b1 / 4 * 4 + (b1 % 4 * 16 + b2 / 16) / 16 = b1 := by omega
    have e2 : (b1 % 4 * 16 + b2 / 16) % 16 * 16 + b2 % 16 * 4 / 4 = b2 := by omega
    rw [e1, e2]
  | b1 :: b2 :: b3 :: b4 :: rest, h => by
    have h1 : b1 < 256 := h b1 (by simp)
    have h2 : b2 < 256 := h b2 (by simp)
    have h3 : b3 < 256 := h b3 (by simp)
    have ih := b64DecIdx_encIdx (b4 :: rest) (fun b hb => h b (by simp [List.mem_cons] at hb ⊢; tauto))
    simp only [b64EncIdx, b64DecIdx, ih]
    have e1 : b1 / 4 * 4 + (b1 % 4 * 16 + b2 / 16) / 16 = b1 := by omega
    have e2 : (b1 % 4 * 16 + b2 / 16) % 16 * 16 + (b2 % 16 * 4 + b3 / 64) / 4 = b2 := by omega
    have e3 : (b2 % 16 * 4 + b3 / 64) % 4 * 64 + b3 % 64 = b3 := by omega
    rw [e1, e2, e3]
  | [b1, b2, b3], h => by
    have h1 : b1 < 256 := h b1 (by simp)
    have h2 : b2 < 256 := h b2 (by simp)
    have h3 : b3 < 256 := h b3 (by simp)
    simp only [b64EncIdx, b64DecIdx]
    have e1 : b1 / 4 * 4 + (b1 % 4 * 16 + b2 / 16) / 16 = b1 := by omega
    have e2 : (b1 % 4 * 16 + b2 / 16) % 16 * 16 + (b2 % 16 * 4 + b3 / 64) / 4 = b2 := by omega
    have e3 : (b2 % 16 * 4 + b3 / 64) % 4 * 64 + b3 % 64 = b3 := by omega
    rw [e1, e2, e3]

theorem b64IdxStd_charStd : ∀ i : Nat, i < 64 → b64IdxStd (b64CharStd i) = some i := by decide

theorem b64IdxUrl_charUrl : ∀ i : Nat, i < 64 → b64IdxUrl (b64CharUrl i) = some i := by decide

theorem b64CharStd_ascii : ∀ i : Nat, i < 64 → (b64CharStd i).toNat < 128 := by decide

theorem b64CharUrl_ascii : ∀ i : Nat, i < 64 → (b64CharUrl i).toNat < 128 := by decide

theorem b64CharStd_ne_openBrace : ∀ i : Nat, i < 64 → b64CharStd i ≠ Char.ofNat 123 := by decide

theorem mapOpt_map_some {α β : Type} (f : β → Option α) (g : α → β) :
    ∀ l : List α, (∀ a ∈ l, f (g a) = some a) → mapOpt f (l.map g) = some l
  | [], _ => rfl
  | a :: as, h => by
    have ha : f (g a) = some a := h a (by simp)
    have ih := mapOpt_map_some f g as (fun x hx => h x (by simp [hx]))
    simp only [List.map_cons, mapOpt, ha, ih]

theorem b64DecodeStd_encodeStd (bs : List Nat) (h : ∀ b ∈ bs, b < 256) :
    b64DecodeStd (b64EncodeStd bs) = some bs := by
  unfold b64DecodeStd b64EncodeStd
  rw [mapOpt_map_some b64IdxStd b64CharStd (b64EncIdx bs)
        (fun i hi => b64IdxStd_charStd i (b64EncIdx_lt64 bs h i hi))]
  exact b64DecIdx_encIdx bs h

theorem b64DecodeUrl_encodeUrl (bs : List Nat) (h : ∀ b ∈ bs, b < 256) :
    b64DecodeUrl (b64EncodeUrl bs) = some bs := by
  unfold b64DecodeUrl b64EncodeUrl
  rw [mapOpt_map_some b64IdxUrl b64CharUrl (b64EncIdx bs)
        (fun i hi => b64IdxUrl_charUrl i (b64EncIdx_lt64 bs h i hi))]
  exact b64DecIdx_encIdx bs h

theorem map_ofNat_toNat : ∀ l : List Char, (l.map Char.toNat).map Char.ofNat = l := by
  intro l
  rw [List.map_map]
  have : Char.ofNat ∘ Char.toNat = id := by
    funext c
    exact Char.ofNat_toNat c
  rw [this, List.map_id]

/-! ## Lemmas: digest byte range -/

theorem wordBytesBE_lt256 (n : Nat) : ∀ b ∈ wordBytesBE n, b < 256 := by
  simp only [wordBytesBE, List.mem_cons, List.not_mem_nil, or_false]
  rintro b (rfl | rfl | rfl | rfl) <;> omega

theorem sha256_lt256 (msg : List Nat) : ∀ b ∈ sha256 msg, b < 256 := by
  intro b hb
  unfold sha256 at hb
  rw [List.mem_flatMap] at hb
  obtain ⟨w, _, hbw⟩ := hb
  exact wordBytesBE_lt256 w b hbw

/-! ## Lemmas: packet codec -/

theorem validAddress_length {acc : List Nat} (h : validAddress acc = true) :
    acc.length ≤ maxAddressLength := by
  unfold validAddress at h
  simp only [Bool.and_eq_true, decide_eq_true_eq] at h
  exact h.1.1.2

theorem validAddress_bytes {acc : List Nat} (h : validAddress acc = true) :
    ∀ b ∈ acc, b < 256 := by
  unfold validAddress at h
  simp only [Bool.and_eq_true, decide_eq_true_eq, List.all_eq_true, Bool.or_eq_true] at h
  intro b hb
  rcases h.1.2 b hb with hA | hD
  · unfold isAddrChar at hA
    simp only [Bool.or_eq_true, Bool.and_eq_true, decide_eq_true_eq] at hA
    omega
  · omega

theorem validAmountBytes_length {a : List Nat} (h : validAmountBytes a = true) :
    a.length ≤ maxAmountDigits := by
  unfold validAmountBytes at h
  simp only [Bool.and_eq_true, decide_eq_true_eq] at h
  exact h.1.2

theorem validAmountBytes_bytes {a : List Nat} (h : validAmountBytes a = true) :
    ∀ b ∈ a, b < 256 := by
  unfold validAmountBytes at h
  simp only [Bool.and_eq_true, decide_eq_true_eq, List.all_eq_true] at h
  intro b hb
  have := h.2 b hb
  unfold isDigitByte at this
  simp only [Bool.and_eq_true, decide_eq_true_eq] at this
  omega

theorem serializePacket_lt256 {a acc d : List Nat}
    (ha : validAmountBytes a = true) (hacc : validAddress acc = true)
    (hd : d.length ≤ maxDataLength) (hdb : ∀ b ∈ d, b < 256) :
    ∀ b ∈ serializePacket a acc d, b < 256 := by
  have hal := validAmountBytes_length ha
  have haccl := validAddress_length hacc
  intro b hb
  unfold serializePacket packetTag at hb
  unfold maxAmountDigits at hal
  unfold maxAddressLength at haccl
  unfold maxDataLength at hd
  simp only [List.mem_cons, List.mem_append] at hb
  rcases hb with rfl | rfl | hb | rfl | hb | rfl | rfl | hb
  · omega
  · omega
  · exact validAmountBytes_bytes ha b hb
  · omega
  · exact validAddress_bytes hacc b hb
  · omega
  · omega
  · exact hdb b hb

theorem encodePacket_ok {a acc d p : List Nat} (h : encodePacket a acc d = .ok p) :
    p = serializePacket a acc d ∧ validAddress acc = true ∧ validAmountBytes a = true ∧
    d.length ≤ maxDataLength ∧ (∀ b ∈ d, b < 256) := by
  unfold encodePacket at h
  split at h
  · split at h
    · split at h
      · rename_i h1 h2 h3
        simp only [Bool.and_eq_true, decide_eq_true_eq, List.all_eq_true] at h3
        refine ⟨by injection h with h'; exact h'.symm, h1, h2, h3.1, fun b hb => ?_⟩
        have := h3.2 b hb
        simpa using this
      · exact absurd h (by simp)
    · exact absurd h (by simp)
  · exact absurd h (by simp)

theorem decodePacketBytes_serialize {a acc d : List Nat} (hd : d.length ≤ maxDataLength) :
    decodePacketBytes (serializePacket a acc d) = .ok (a, acc, d) := by
  unfold serializePacket
  simp only [decodePacketBytes]
  have hg1 : (a ++ (acc.length :: (acc ++ (d.length / 256 :: d.length % 256 :: d)))).getD
      a.length 0 = acc.length := by
    rw [List.getD_append_right _ _ _ _ (Nat.le_refl _)]
    simp
  have hdrop1 : (a ++ (acc.length :: (acc ++ (d.length / 256 :: d.length % 256 :: d)))).drop
      (a.length + 1) = acc ++ (d.length / 256 :: d.length % 256 :: d) := by
    rw [List.drop_append 1]
    simp
  simp only [hg1, hdrop1]
  have hg2 : (acc ++ (d.length / 256 :: d.length % 256 :: d)).getD acc.length 0 =
      d.length / 256 := by
    rw [List.getD_append_right _ _ _ _ (Nat.le_refl _)]
    simp
  have hg3 : (acc ++ (d.length / 256 :: d.length % 256 :: d)).getD (acc.length + 1) 0 =
      d.length % 256 := by
    rw [List.getD_append_right _ _ _ _ (Nat.le_succ_of_le (Nat.le_refl _))]
    simp
  simp only [hg2, hg3]
  have hlen1 : a.length + 1 ≤ (a ++ (acc.length :: (acc ++ (d.length / 256 :: d.length % 256 :: d)))).length := by
    simp only [List.length_append, List.length_cons]
    omega
  rw [if_pos (And.intro trivial hlen1)]
  have hc2 : acc.length + 2 ≤ (acc ++ (d.length / 256 :: d.length % 256 :: d)).length := by
    simp only [List.length_append, List.length_cons]
    omega
  rw [if_pos hc2]
  have hc3 : acc.length + 2 + (d.length / 256 * 256 + d.length % 256) =
      (acc ++ (d.length / 256 :: d.length % 256 :: d)).length ∧
      d.length / 256 < 128 ∧ d.length % 256 < 256 := by
    unfold maxDataLength at hd
    simp only [List.length_append, List.length_cons]
    omega
  rw [if_pos hc3]
  rw [List.take_left, List.take_left]
  have hdrop2 : (acc ++ (d.length / 256 :: d.length % 256 :: d)).drop (acc.length + 2) = d := by
    rw [List.drop_append 2]
    simp
  rw [hdrop2]

theorem decodePacketBytes_encodePacket {a acc d p : List Nat}
    (h : encodePacket a acc d = .ok p) :
    decodePacketBytes p = .ok (a, acc, d) := by
  obtain ⟨rfl, _, _, hd, _⟩ := encodePacket_ok h
  exact decodePacketBytes_serialize hd

theorem decodePacketBytes_error_eq {p : List Nat} {e : IlpError}
    (h : decodePacketBytes p = .error e) : e = .DecodeError := by
  rcases p with _ | ⟨tag, _ | ⟨aLen, rest⟩⟩
  · simp only [decodePacketBytes, Except.error.injEq] at h
    exact h.symm
  · simp only [decodePacketBytes, Except.error.injEq] at h
    exact h.symm
  · simp only [decodePacketBytes] at h
    split_ifs at h <;> simp only [Except.error.injEq] at h <;> exact h.symm

theorem decodePacketBytes_sound {p a acc d : List Nat}
    (h : decodePacketBytes p = .ok (a, acc, d)) : p = serializePacket a acc d := by
  rcases p with _ | ⟨tag, _ | ⟨aLen, rest⟩⟩
  · exact absurd h (by simp [decodePacketBytes])
  · exact absurd h (by simp [decodePacketBytes])
  · simp only [decodePacketBytes] at h
    split_ifs at h with h1 h2 h3
    obtain ⟨htag, hA⟩ := h1
    simp only [Except.ok.injEq, Prod.mk.injEq] at h
    obtain ⟨ha, hacc, hd⟩ := h
    obtain ⟨hTot, hHi, hLo⟩ := h3
    have hAlt : aLen < rest.length := by omega
    have haLen : a.length = aLen := by
      rw [← ha, List.length_take]
      omega
    have hacclen : acc.length = rest.getD aLen 0 := by
      rw [← hacc, List.length_take]
      omega
    have hdl : d.length = (rest.drop (aLen + 1)).length - (rest.getD aLen 0 + 2) := by
      rw [← hd, List.length_drop]
    have hBlt : rest.getD aLen 0 < (rest.drop (aLen + 1)).length := by omega
    have hBlt2 : rest.getD aLen 0 + 1 < (rest.drop (aLen + 1)).length := by omega
    have h22 : rest.getD aLen 0 + 1 + 1 = rest.getD aLen 0 + 2 := by omega
    have e1 : (rest.drop (aLen + 1)).drop (rest.getD aLen 0 + 1) =
        (rest.drop (aLen + 1)).getD (rest.getD aLen 0 + 1) 0 :: d := by
      rw [List.drop_eq_getElem_cons hBlt2, ← List.getD_eq_getElem _ 0 hBlt2, h22, hd]
    have e2 : (rest.drop (aLen + 1)).drop (rest.getD aLen 0) =
        (rest.drop (aLen + 1)).getD (rest.getD aLen 0) 0 ::
        ((rest.drop (aLen + 1)).getD (rest.getD aLen 0 + 1) 0 :: d) := by
      rw [List.drop_eq_getElem_cons hBlt, ← List.getD_eq_getElem _ 0 hBlt, e1]
    have hstep2 : rest.drop (aLen + 1) =
        acc ++ ((rest.drop (aLen + 1)).getD (rest.getD aLen 0) 0 ::
          ((rest.drop (aLen + 1)).getD (rest.getD aLen 0 + 1) 0 :: d)) := by
      conv_lhs => rw [← List.take_append_drop (rest.getD aLen 0) (rest.drop (aLen + 1))]
      rw [hacc, e2]
    have hstep0 : rest.drop aLen = rest.getD aLen 0 :: rest.drop (aLen + 1) := by
      rw [List.drop_eq_getElem_cons hAlt, ← List.getD_eq_getElem rest 0 hAlt]
    have hstep1 : rest = a ++ (rest.getD aLen 0 :: rest.drop (aLen + 1)) := by
      conv_lhs => rw [← List.take_append_drop aLen rest]
      rw [ha, hstep0]
    have hgd1 : (rest.drop (aLen + 1)).getD (rest.getD aLen 0) 0 = d.length / 256 := by
      omega
    have hgd2 : (rest.drop (aLen + 1)).getD (rest.getD aLen 0 + 1) 0 = d.length % 256 := by
      omega
    unfold serializePacket
    rw [htag, hstep1, hstep2, hgd1, hgd2, ← hacclen, ← haLen]

theorem decodePacketBytes_take {p : List Nat} {x : List Nat × List Nat × List Nat}
    (h : decodePacketBytes p = .ok x) {n : Nat} (hn : n < p.length) :
    decodePacketBytes (p.take n) = .error .DecodeError := by
  obtain ⟨a, acc, d⟩ := x
  have hp := decodePacketBytes_sound h
  subst hp
  rcases hor : decodePacketBytes ((serializePacket a acc d).take n) with e | y
  · rw [decodePacketBytes_error_eq hor]
  · exfalso
    obtain ⟨a2, acc2, d2⟩ := y
    have hq := decodePacketBytes_sound hor
    have hsplit : (serializePacket a acc d).take n ++ (serializePacket a acc d).drop n =
        serializePacket a acc d := List.take_append_drop n _
    have hrne : (serializePacket a acc d).drop n ≠ [] := by
      apply List.ne_nil_of_length_pos
      rw [List.length_drop]
      omega
    rw [hq] at hsplit
    unfold serializePacket at hsplit hrne
    simp only [List.cons_append, List.cons.injEq] at hsplit
    obtain ⟨_, hlenEq, hbody⟩ := hsplit
    rw [List.append_assoc] at hbody
    obtain ⟨ha2, hbody2⟩ := List.append_inj hbody (by omega)
    simp only [List.cons_append, List.cons.injEq] at hbody2
    obtain ⟨hacclen2, hbody3⟩ := hbody2
    rw [List.append_assoc] at hbody3
    obtain ⟨hacc2, hbody4⟩ := List.append_inj hbody3 (by omega)
    simp only [List.cons_append, List.cons.injEq] at hbody4
    obtain ⟨hhi, hlo, hbody5⟩ := hbody4
    have hdlen : d2.length = d.length := by omega
    have hlenadd := congrArg List.length hbody5
    rw [List.length_append] at hlenadd
    exact hrne (List.eq_nil_of_length_eq_zero (by omega))

/-! ## Lemmas: canonical JSON serialization -/

theorem stripLit_append : ∀ p l : List Char, stripLit p (p ++ l) = some l
  | [], _ => rfl
  | c :: cs, l => by
    simp only [List.cons_append, stripLit, if_pos rfl]
    exact stripLit_append cs l

theorem stripLit_cons_ne {p c : Char} {ps cs : List Char} (h : c ≠ p) :
    stripLit (p :: ps) (c :: cs) = none := by
  simp [stripLit, h]

theorem readQuoted_append :
    ∀ s rest : List Char, (∀ c ∈ s, c ≠ '"') → readQuoted (s ++ '"' :: rest) = some (s, rest)
  | [], rest, _ => by simp [readQuoted]
  | c :: cs, rest, h => by
    have hc : c ≠ '"' := h c (by simp)
    have ih := readQuoted_append cs rest (fun x hx => h x (by simp [hx]))
    simp only [List.cons_append, readQuoted, if_neg hc, List.append_eq, ih]

theorem parseField_append (lit s rest : List Char) (h : ∀ c ∈ s, c ≠ '"') :
    parseField lit (lit ++ (s ++ '"' :: rest)) = some (s, rest) := by
  unfold parseField
  rw [stripLit_append]
  exact readQuoted_append s rest h

theorem jsonSafeString_no_quote {s : String} (h : jsonSafeString s = true) :
    ∀ c ∈ s.data, c ≠ '"' := by
  intro c hc
  unfold jsonSafeString at h
  rw [List.all_eq_true] at h
  have hch := h c hc
  unfold jsonSafeChar at hch
  simp only [Bool.and_eq_true, Bool.not_eq_true', decide_eq_false_iff_not,
    decide_eq_true_eq] at hch
  exact hch.1.2

theorem jsonSafeString_ascii {s : String} (h : jsonSafeString s = true) :
    ∀ c ∈ s.data, c.toNat < 128 := by
  intro c hc
  unfold jsonSafeString at h
  rw [List.all_eq_true] at h
  have hch := h c hc
  unfold jsonSafeChar at hch
  simp only [Bool.and_eq_true, Bool.not_eq_true', decide_eq_false_iff_not,
    decide_eq_true_eq] at hch
  exact hch.1.1

theorem parseTransactionObject_json {t : TransactionObject} (h : jsonSafeTxo t = true) :
    parseTransactionObject (transactionObjectJson t) = some t := by
  unfold jsonSafeTxo at h
  simp only [Bool.and_eq_true] at h
  obtain ⟨⟨⟨⟨⟨⟨⟨⟨hq1, hq2⟩, hq3⟩, hq4⟩, hq5⟩, hq6⟩, hq7⟩, hq8⟩, hq9⟩ := h
  have hp1 : ∀ rest, parseField txoLit1 (txoLit1 ++ (t.transactionId.data ++ '"' :: rest)) =
      some (t.transactionId.data, rest) :=
    fun rest => parseField_append _ _ _ (jsonSafeString_no_quote hq1)
  have hp2 : ∀ rest, parseField txoLit2 (txoLit2 ++ (t.quoteId.data ++ '"' :: rest)) =
      some (t.quoteId.data, rest) :=
    fun rest => parseField_append _ _ _ (jsonSafeString_no_quote hq2)
  have hp3 : ∀ rest, parseField txoLit3 (txoLit3 ++ (t.payee.data ++ '"' :: rest)) =
      some (t.payee.data, rest) :=
    fun rest => parseField_append _ _ _ (jsonSafeString_no_quote hq3)
  have hp4 : ∀ rest, parseField txoLit4 (txoLit4 ++ (t.payer.data ++ '"' :: rest)) =
      some (t.payer.data, rest) :=
    fun rest => parseField_append _ _ _ (jsonSafeString_no_quote hq4)
  have hp5 : ∀ rest, parseField txoLit5 (txoLit5 ++ (t.amount.currency.data ++ '"' :: rest)) =
      some (t.amount.currency.data, rest) :=
    fun rest => parseField_append _ _ _ (jsonSafeString_no_quote hq5)
  have hp6 : ∀ rest, parseField txoLit6 (txoLit6 ++ (t.amount.amount.data ++ '"' :: rest)) =
      some (t.amount.amount.data, rest) :=
    fun rest => parseField_append _ _ _ (jsonSafeString_no_quote hq6)
  have hp7 : ∀ rest, parseField txoLit7
      (txoLit7 ++ (t.transactionType.scenario.data ++ '"' :: rest)) =
      some (t.transactionType.scenario.data, rest) :=
    fun rest => parseField_append _ _ _ (jsonSafeString_no_quote hq7)
  have hp8 : ∀ rest, parseField txoLit8
      (txoLit8 ++ (t.transactionType.initiator.data ++ '"' :: rest)) =
      some (t.transactionType.initiator.data, rest) :=
    fun rest => parseField_append _ _ _ (jsonSafeString_no_quote hq8)
  have hp9 : ∀ rest, parseField txoLit9
      (txoLit9 ++ (t.transactionType.initiatorType.data ++ '"' :: rest)) =
      some (t.transactionType.initiatorType.data, rest) :=
    fun rest => parseField_append _ _ _ (jsonSafeString_no_quote hq9)
  simp only [parseTransactionObject, transactionObjectJson, hp1, hp2, hp3, hp4, hp5,
    hp6, hp7, hp8, hp9]
  rw [if_pos trivial]

theorem transactionObjectJson_ascii {t : TransactionObject} (h : jsonSafeTxo t = true) :
    ∀ c ∈ transactionObjectJson t, c.toNat < 128 := by
  unfold jsonSafeTxo at h
  simp only [Bool.and_eq_true] at h
  obtain ⟨⟨⟨⟨⟨⟨⟨⟨hq1, hq2⟩, hq3⟩, hq4⟩, hq5⟩, hq6⟩, hq7⟩, hq8⟩, hq9⟩ := h
  simp only [transactionObjectJson, List.forall_mem_append, List.forall_mem_cons]
  exact ⟨by decide, jsonSafeString_ascii hq1, by decide,
         by decide, jsonSafeString_ascii hq2, by decide,
         by decide, jsonSafeString_ascii hq3, by decide,
         by decide, jsonSafeString_ascii hq4, by decide,
         by decide, jsonSafeString_ascii hq5, by decide,
         by decide, jsonSafeString_ascii hq6, by decide,
         by decide, jsonSafeString_ascii hq7, by decide,
         by decide, jsonSafeString_ascii hq8, by decide,
         by decide, jsonSafeString_ascii hq9, by decide, by decide⟩

theorem parseTransactionObject_b64 {b : Nat} {rest : List Nat} (hb : b < 256) :
    parseTransactionObject (b64EncodeStd (b :: rest)) = none := by
  have hhead : ∃ tail, b64EncodeStd (b :: rest) = b64CharStd (b / 4) :: tail := by
    rcases rest with _ | ⟨b2, rest2⟩
    · exact ⟨_, rfl⟩
    · rcases rest2 with _ | ⟨b3, rest3⟩
      · exact ⟨_, rfl⟩
      · exact ⟨_, rfl⟩
  obtain ⟨tail, htail⟩ := hhead
  have hlit1 : txoLit1 = Char.ofNat 123 :: "\"transactionId\":\"".data := rfl
  have hne : b64CharStd (b / 4) ≠ Char.ofNat 123 :=
    b64CharStd_ne_openBrace (b / 4) (by omega)
  have hpf : parseField txoLit1 (b64CharStd (b / 4) :: tail) = none := by
    unfold parseField
    rw [hlit1, stripLit_cons_ne hne]
  simp only [parseTransactionObject, htail, hpf]

/-! ## Lemmas: pipeline -/

theorem encodePacket_lt256 {a acc d p : List Nat} (h : encodePacket a acc d = .ok p) :
    ∀ b ∈ p, b < 256 := by
  obtain ⟨rfl, hacc, ha, hd, hdb⟩ := encodePacket_ok h
  exact serializePacket_lt256 ha hacc hd hdb

theorem getQuoteResponseIlp_ok {secret : List Nat} {qr : QuoteRequest} {pr : PartialResponse}
    {combo : IlpCombo} (h : getQuoteResponseIlp secret qr pr = .ok combo) :
    ∃ t packetBytes, buildTransactionObject qr pr = .ok t ∧
      encodePacket (ilpAmountOf t.amount) ilpAddress (packetDataOf t) = .ok packetBytes ∧
      combo = { fulfilment := String.mk (b64EncodeUrl (calculateFulfil secret packetBytes)),
                ilpPacket := String.mk (b64EncodeStd packetBytes),
                condition := String.mk (b64EncodeUrl (calculateConditionFromFulfil
                  (calculateFulfil secret packetBytes))) } := by
  unfold getQuoteResponseIlp at h
  cases hb : buildTransactionObject qr pr with
  | error e => simp [hb] at h
  | ok t =>
    simp only [hb] at h
    cases he : encodePacket (ilpAmountOf t.amount) ilpAddress (packetDataOf t) with
    | error e => simp [he] at h
    | ok pb =>
      simp only [he, Except.ok.injEq] at h
      exact ⟨t, pb, rfl, he, h.symm⟩

theorem calculateFulfil_lt256 (secret packetBytes : List Nat) :
    ∀ b ∈ calculateFulfil secret packetBytes, b < 256 := by
  unfold calculateFulfil hmacSha256
  exact sha256_lt256 _

theorem getTransactionObject_generated {secret : List Nat} {qr : QuoteRequest}
    {pr : PartialResponse} {combo : IlpCombo} {t : TransactionObject}
    (hg : getQuoteResponseIlp secret qr pr = .ok combo)
    (hb : buildTransactionObject qr pr = .ok t)
    (hsafe : jsonSafeTxo t = true) :
    getTransactionObject combo.ilpPacket = .ok t := by
  obtain ⟨t2, pb, hb2, he, hcombo⟩ := getQuoteResponseIlp_ok hg
  rw [hb] at hb2
  have ht2 : t2 = t := (Except.ok.inj hb2).symm
  subst ht2
  subst hcombo
  have h256 : ∀ b ∈ pb, b < 256 := encodePacket_lt256 he
  have hdata : (packetDataOf t2).map Char.ofNat =
      b64EncodeStd ((transactionObjectJson t2).map Char.toNat) :=
    map_ofNat_toNat (b64EncodeStd ((transactionObjectJson t2).map Char.toNat))
  have hjb : ∀ b ∈ (transactionObjectJson t2).map Char.toNat, b < 256 := by
    intro b hbm
    rw [List.mem_map] at hbm
    obtain ⟨c, hc, rfl⟩ := hbm
    have := transactionObjectJson_ascii hsafe c hc
    omega
  simp only [getTransactionObject, decodeIlpPacket, b64DecodeStd_encodeStd pb h256,
    decodePacketBytes_encodePacket he, hdata, b64DecodeStd_encodeStd _ hjb,
    map_ofNat_toNat, parseTransactionObject_json hsafe]

theorem validateIlp_error {tr : TransferRequest} {e : IlpError}
    (h : getTransactionObject tr.ilpPacket = .error e) :
    validateIlpAgainstTransferRequest tr = .error e := by
  unfold validateIlpAgainstTransferRequest
  simp only [h]

theorem validateIlp_ok {tr : TransferRequest} {t : TransactionObject}
    (h : getTransactionObject tr.ilpPacket = .ok t) :
    validateIlpAgainstTransferRequest tr =
      .ok (decide (tr.amount.amount = t.amount.amount ∧
                   tr.amount.currency = t.amount.currency)) := by
  unfold validateIlpAgainstTransferRequest
  simp only [h]

theorem buildTransactionObject_amount {qr : QuoteRequest} {pr : PartialResponse}
    {t : TransactionObject} (h : buildTransactionObject qr pr = .ok t) :
    pr.transferAmount = some t.amount := by
  unfold buildTransactionObject at h
  rcases qr with ⟨tid, qid, pe, pyr, amt, tt⟩
  rcases pr with ⟨ta, r1, r2, r3, r4⟩
  cases tid <;> cases qid <;> cases pe <;> cases pyr <;> cases tt <;> cases ta <;>
    simp_all
  subst h
  rfl

theorem calculateConditionFromFulfil_lt256 (fb : List Nat) :
    ∀ b ∈ calculateConditionFromFulfil fb, b < 256 :=
  sha256_lt256 fb

theorem validateFulfil_encoded (fb cb : List Nat) (hf : ∀ b ∈ fb, b < 256)
    (hc : ∀ b ∈ cb, b < 256) :
    validateFulfil (String.mk (b64EncodeUrl fb)) (String.mk (b64EncodeUrl cb)) =
      decide (calculateConditionFromFulfil fb = cb) := by
  unfold validateFulfil
  simp only [b64DecodeUrl_encodeUrl fb hf, b64DecodeUrl_encodeUrl cb hc]

/-! ## Claim theorems -/

/-- C1: for a transfer request whose packet is the one produced by
getQuoteResponseIlp, exact string equality of the transfer's amount and
currency with the transferAmount committed at quote time makes
validateIlpAgainstTransferRequest return true, and any change to the
transfer's amount string, all other fields unchanged, makes it return
false. -/
theorem claim_C1_binding_integrity {secret : List Nat} {qr : QuoteRequest}
    {pr : PartialResponse} {combo : IlpCombo} {t : TransactionObject} {ta : Money}
    (tr : TransferRequest)
    (hg : getQuoteResponseIlp secret qr pr = .ok combo)
    (hb : buildTransactionObject qr pr = .ok t)
    (hsafe : jsonSafeTxo t = true)
    (hta : pr.transferAmount = some ta)
    (hpkt : tr.ilpPacket = combo.ilpPacket) :
    (tr.amount.amount = ta.amount ∧ tr.amount.currency = ta.currency →
      validateIlpAgainstTransferRequest tr = .ok true) ∧
    (tr.amount.amount ≠ ta.amount →
      validateIlpAgainstTransferRequest tr = .ok false) := by
  have hAmt : t.amount = ta := by
    have := buildTransactionObject_amount hb
    rw [hta] at this
    exact (Option.some.inj this).symm
  have hget : getTransactionObject tr.ilpPacket = .ok t := by
    rw [hpkt]
    exact getTransactionObject_generated hg hb hsafe
  have hval := validateIlp_ok hget
  constructor
  · rintro ⟨h1, h2⟩
    rw [hval, hAmt]
    simp [h1, h2]
  · intro hne
    rw [hval, hAmt]
    simp [hne]

/-- C2: the packet codec satisfies the round-trip law: for every amount,
account and data accepted by encodePacket, decoding the encoding returns
exactly the original triple. -/
theorem claim_C2_roundtrip {a acc d p : List Nat} (h : encodePacket a acc d = .ok p) :
    decodePacketBytes p = .ok (a, acc, d) :=
  decodePacketBytes_encodePacket h

/-- C3: the condition is the hash of the fulfilment, validateFulfil accepts
every generated fulfilment-condition pair, and rejects any condition whose
decoded bytes differ at any position; the pairs produced by
getQuoteResponseIlp always validate. -/
theorem claim_C3_condition_derivation (secret packetBytes : List Nat) :
    calculateConditionFromFulfil (calculateFulfil secret packetBytes) =
      sha256 (calculateFulfil secret packetBytes) ∧
    validateFulfil (String.mk (b64EncodeUrl (calculateFulfil secret packetBytes)))
      (String.mk (b64EncodeUrl (calculateConditionFromFulfil
        (calculateFulfil secret packetBytes)))) = true ∧
    (∀ i b2, i < (calculateConditionFromFulfil (calculateFulfil secret packetBytes)).length →
      b2 < 256 →
      b2 ≠ (calculateConditionFromFulfil (calculateFulfil secret packetBytes)).getD i 0 →
      validateFulfil (String.mk (b64EncodeUrl (calculateFulfil secret packetBytes)))
        (String.mk (b64EncodeUrl ((calculateConditionFromFulfil
          (calculateFulfil secret packetBytes)).set i b2))) = false) ∧
    (∀ (qr : QuoteRequest) (pr : PartialResponse) (combo : IlpCombo),
      getQuoteResponseIlp secret qr pr = .ok combo →
      validateFulfil combo.fulfilment combo.condition = true) := by
  have hf256 : ∀ b ∈ calculateFulfil secret packetBytes, b < 256 :=
    calculateFulfil_lt256 secret packetBytes
  have hc256 : ∀ b ∈ calculateConditionFromFulfil (calculateFulfil secret packetBytes),
      b < 256 := sha256_lt256 _
  refine ⟨rfl, ?_, ?_, ?_⟩
  · rw [validateFulfil_encoded _ _ hf256 hc256]
    simp
  · intro i b2 hi hb2 hne
    have hset256 : ∀ b ∈ (calculateConditionFromFulfil
        (calculateFulfil secret packetBytes)).set i b2, b < 256 := by
      intro b hbm
      rcases List.mem_or_eq_of_mem_set hbm with hmem | rfl
      · exact hc256 b hmem
      · exact hb2
    rw [validateFulfil_encoded _ _ hf256 hset256]
    simp only [decide_eq_false_iff_not]
    intro heq
    have hcg := congrArg (fun l => l.getD i 0) heq
    have hset : ((calculateConditionFromFulfil
        (calculateFulfil secret packetBytes)).set i b2).getD i 0 = b2 := by
      rw [List.getD_eq_getElem _ _ (by rw [List.length_set]; exact hi)]
      exact List.getElem_set_self _
    simp only [hset] at hcg
    exact hne hcg.symm
  · intro qr pr combo hg
    obtain ⟨t, pb, hb, he, hcombo⟩ := getQuoteResponseIlp_ok hg
    subst hcombo
    show validateFulfil (String.mk (b64EncodeUrl (calculateFulfil secret pb)))
      (String.mk (b64EncodeUrl (calculateConditionFromFulfil
        (calculateFulfil secret pb)))) = true
    rw [validateFulfil_encoded _ _ (calculateFulfil_lt256 secret pb)
      (calculateConditionFromFulfil_lt256 _)]
    simp

/-- C4: getQuoteResponseIlp is a pure, deterministic function of the secret,
the quote request and the partial response: byte-identical inputs produce
byte-identical fulfilment, packet and condition. -/
theorem claim_C4_determinism (s1 s2 : List Nat) (qr1 qr2 : QuoteRequest)
    (pr1 pr2 : PartialResponse) (hs : s1 = s2) (hq : qr1 = qr2) (hp : pr1 = pr2) :
    getQuoteResponseIlp s1 qr1 pr1 = getQuoteResponseIlp s2 qr2 pr2 := by
  subst hs
  subst hq
  subst hp
  rfl

/-- C5: getTransactionObject applied to the packet produced by
getQuoteResponseIlp returns exactly the TransactionObject assembled from
the quote request and the partial response (lossless embedding). -/
theorem claim_C5_lossless_embedding {secret : List Nat} {qr : QuoteRequest}
    {pr : PartialResponse} {combo : IlpCombo} {t : TransactionObject}
    (hg : getQuoteResponseIlp secret qr pr = .ok combo)
    (hb : buildTransactionObject qr pr = .ok t)
    (hsafe : jsonSafeTxo t = true) :
    getTransactionObject combo.ilpPacket = .ok t :=
  getTransactionObject_generated hg hb hsafe

/-- C6: the validators separate errors from negative outcomes: a packet that
fails to decode or parse propagates its error through
validateIlpAgainstTransferRequest and is never reported as false, a
structurally valid packet yields the boolean comparison verdict and never an
error, and validateFulfil returns false, never an error, on malformed
base64url input on either side. -/
theorem claim_C6_error_vs_false :
    (∀ (tr : TransferRequest) (e : IlpError), getTransactionObject tr.ilpPacket = .error e →
        validateIlpAgainstTransferRequest tr = .error e) ∧
    (∀ (tr : TransferRequest) (t : TransactionObject),
        getTransactionObject tr.ilpPacket = .ok t →
        validateIlpAgainstTransferRequest tr =
          .ok (decide (tr.amount.amount = t.amount.amount ∧
                       tr.amount.currency = t.amount.currency))) ∧
    (∀ f c : String, b64DecodeUrl f.data = none → validateFulfil f c = false) ∧
    (∀ (f c : String) (fb : List Nat), b64DecodeUrl f.data = some fb →
        b64DecodeUrl c.data = none → validateFulfil f c = false) := by
  refine ⟨fun tr e h => validateIlp_error h, fun tr t h => validateIlp_ok h, ?_, ?_⟩
  · intro f c h
    unfold validateFulfil
    simp only [h]
  · intro f c fb hf hc
    unfold validateFulfil
    simp only [hf, hc]

/-- C7: malformed packet input always raises DecodeError: a non-base64
string, a wrong structural tag, and a truncated buffer all decode to
DecodeError, and every successful decode consumed exactly the canonical
serialization, so no partial or default result is ever returned. -/
theorem claim_C7_malformed_decode :
    (∀ s : String, b64DecodeStd s.data = none → decodeIlpPacket s = .error .DecodeError) ∧
    (∀ (tag aLen : Nat) (rest : List Nat), tag ≠ packetTag →
        decodePacketBytes (tag :: aLen :: rest) = .error .DecodeError) ∧
    (∀ (p : List Nat) (x : List Nat × List Nat × List Nat) (n : Nat),
        decodePacketBytes p = .ok x → n < p.length →
        decodePacketBytes (p.take n) = .error .DecodeError) ∧
    (∀ p a acc d : List Nat, decodePacketBytes p = .ok (a, acc, d) →
        p = serializePacket a acc d) := by
  refine ⟨?_, ?_, fun p x n h hn => decodePacketBytes_take h hn,
         fun p a acc d h => decodePacketBytes_sound h⟩
  · intro s h
    unfold decodeIlpPacket
    simp only [h]
  · intro tag aLen rest htag
    simp only [decodePacketBytes]
    rw [if_neg (fun hh => htag hh.1)]

/-- C8: the transaction assembler fails with a MissingFieldError naming the
first absent required field in the fixed order transactionId, quoteId,
payee, payer, transactionType, transferAmount, and produces a
TransactionObject exactly when no required field is absent. -/
theorem claim_C8_missing_fields (qr : QuoteRequest) (pr : PartialResponse) :
    (∀ f, firstMissingField qr pr = some f →
        buildTransactionObject qr pr = .error (.MissingFieldError f)) ∧
    (firstMissingField qr pr = none → ∃ t, buildTransactionObject qr pr = .ok t) := by
  rcases qr with ⟨tid, qid, pe, pyr, amt, tt⟩
  rcases pr with ⟨ta, r1, r2, r3, r4⟩
  cases tid <;> cases qid <;> cases pe <;> cases pyr <;> cases tt <;> cases ta <;>
    simp [buildTransactionObject, firstMissingField]

/-- C9: the assembled TransactionObject's amount is exactly the
transferAmount of the partial response. -/
theorem claim_C9_amount_is_transferAmount {qr : QuoteRequest} {pr : PartialResponse}
    {t : TransactionObject} (h : buildTransactionObject qr pr = .ok t) :
    pr.transferAmount = some t.amount :=
  buildTransactionObject_amount h

/-- C10: the data field of a generated packet is doubly encoded: its bytes,
read as an ASCII string, are the base64 encoding of the canonical JSON of
the TransactionObject, so base64-decoding then JSON-parsing recovers the
TransactionObject, while JSON-parsing the data bytes directly fails. -/
theorem claim_C10_doubly_encoded_data {secret : List Nat} {qr : QuoteRequest}
    {pr : PartialResponse} {combo : IlpCombo} {t : TransactionObject}
    (hg : getQuoteResponseIlp secret qr pr = .ok combo)
    (hb : buildTransactionObject qr pr = .ok t)
    (hsafe : jsonSafeTxo t = true) :
    ∃ am acct dataBytes jsonBytes,
      decodeIlpPacket combo.ilpPacket = .ok (am, acct, dataBytes) ∧
      dataBytes.map Char.ofNat =
        b64EncodeStd ((transactionObjectJson t).map Char.toNat) ∧
      b64DecodeStd (dataBytes.map Char.ofNat) = some jsonBytes ∧
      jsonBytes = (transactionObjectJson t).map Char.toNat ∧
      parseTransactionObject (jsonBytes.map Char.ofNat) = some t ∧
      parseTransactionObject (dataBytes.map Char.ofNat) = none := by
  obtain ⟨t2, pb, hb2, he, hcombo⟩ := getQuoteResponseIlp_ok hg
  rw [hb] at hb2
  have ht2 : t2 = t := (Except.ok.inj hb2).symm
  subst ht2
  subst hcombo
  have h256 : ∀ b ∈ pb, b < 256 := encodePacket_lt256 he
  have hdata : (packetDataOf t2).map Char.ofNat =
      b64EncodeStd ((transactionObjectJson t2).map Char.toNat) :=
    map_ofNat_toNat (b64EncodeStd ((transactionObjectJson t2).map Char.toNat))
  have hjb : ∀ b ∈ (transactionObjectJson t2).map Char.toNat, b < 256 := by
    intro b hbm
    rw [List.mem_map] at hbm
    obtain ⟨c, hc, rfl⟩ := hbm
    have := transactionObjectJson_ascii hsafe c hc
    omega
  refine ⟨ilpAmountOf t2.amount, ilpAddress, packetDataOf t2,
          (transactionObjectJson t2).map Char.toNat, ?_, hdata, ?_, rfl, ?_, ?_⟩
  · simp only [decodeIlpPacket, b64DecodeStd_encodeStd pb h256,
      decodePacketBytes_encodePacket he]
  · rw [hdata, b64DecodeStd_encodeStd _ hjb]
  · rw [map_ofNat_toNat]
    exact parseTransactionObject_json hsafe
  · rw [hdata]
    obtain ⟨cs, hcs⟩ : ∃ cs, transactionObjectJson t2 = Char.ofNat 123 :: cs := ⟨_, rfl⟩
    rw [hcs, List.map_cons]
    exact parseTransactionObject_b64 (by decide)

/-- Witness for C1 at the example data: validation accepts the committed
amount and rejects the altered amount string. -/
theorem claim_C1_binding_integrity_witness :
    validateIlpAgainstTransferRequest trGoodEx = .ok true ∧
    validateIlpAgainstTransferRequest trBadEx = .ok false :=
  ⟨(@claim_C1_binding_integrity secretEx qrEx prEx comboEx tEx taEx trGoodEx
      rfl rfl rfl rfl rfl).1 ⟨rfl, rfl⟩,
   (@claim_C1_binding_integrity secretEx qrEx prEx comboEx tEx taEx trBadEx
      rfl rfl rfl rfl rfl).2 (by decide)⟩

/-- Witness for C2 at a concrete packet. -/
theorem claim_C2_roundtrip_witness :
    decodePacketBytes (serializePacket [49, 48, 48] ilpAddress [7, 8, 9]) =
      .ok ([49, 48, 48], ilpAddress, [7, 8, 9]) :=
  claim_C2_roundtrip (by rfl)

/-- Witness for C3 at the example secret: the generated pair validates and a
flipped condition byte is rejected. -/
theorem claim_C3_condition_derivation_witness :
    validateFulfil (String.mk (b64EncodeUrl (calculateFulfil secretEx [1, 2, 3])))
      (String.mk (b64EncodeUrl (calculateConditionFromFulfil
        (calculateFulfil secretEx [1, 2, 3])))) = true ∧
    validateFulfil (String.mk (b64EncodeUrl (calculateFulfil secretEx [1, 2, 3])))
      (String.mk (b64EncodeUrl ((calculateConditionFromFulfil
        (calculateFulfil secretEx [1, 2, 3])).set 0 99))) = false ∧
    validateFulfil comboEx.fulfilment comboEx.condition = true :=
  ⟨(claim_C3_condition_derivation secretEx [1, 2, 3]).2.1,
   (claim_C3_condition_derivation secretEx [1, 2, 3]).2.2.1 0 99 (by decide) (by decide)
     (by decide),
   (claim_C3_condition_derivation secretEx packetBytesEx).2.2.2 qrEx prEx comboEx rfl⟩

/-- Witness for C4 at the example inputs. -/
theorem claim_C4_determinism_witness :
    getQuoteResponseIlp secretEx qrEx prEx = getQuoteResponseIlp secretEx qrEx prEx :=
  claim_C4_determinism secretEx secretEx qrEx qrEx prEx prEx rfl rfl rfl

/-- Witness for C5 at the example inputs: the packet round-trips to the
assembled TransactionObject. -/
theorem claim_C5_lossless_embedding_witness :
    getTransactionObject comboEx.ilpPacket = .ok tEx :=
  @claim_C5_lossless_embedding secretEx qrEx prEx comboEx tEx rfl rfl rfl

/-- Witness for C6 at concrete data: a non-base64 packet propagates
DecodeError, a valid packet yields the boolean verdict, and malformed
base64url fulfilments or conditions yield false. -/
theorem claim_C6_error_vs_false_witness :
    validateIlpAgainstTransferRequest trMalformedEx = .error .DecodeError ∧
    validateIlpAgainstTransferRequest trGoodEx =
      .ok (decide (trGoodEx.amount.amount = tEx.amount.amount ∧
                   trGoodEx.amount.currency = tEx.amount.currency)) ∧
    validateFulfil "!" "" = false ∧
    validateFulfil "aa" "!" = false :=
  ⟨claim_C6_error_vs_false.1 trMalformedEx .DecodeError rfl,
   claim_C6_error_vs_false.2.1 trGoodEx tEx rfl,
   claim_C6_error_vs_false.2.2.1 "!" "" rfl,
   claim_C6_error_vs_false.2.2.2 "aa" "!" [105] rfl rfl⟩

/-- Witness for C7 at concrete data: non-base64 input, a wrong tag and a
truncated buffer all yield DecodeError, and a successful decode is the
canonical serialization. -/
theorem claim_C7_malformed_decode_witness :
    decodeIlpPacket "!!" = .error .DecodeError ∧
    decodePacketBytes (2 :: 0 :: []) = .error .DecodeError ∧
    decodePacketBytes ((serializePacket [49] ilpAddress [7]).take 3) =
      .error .DecodeError ∧
    serializePacket [49] ilpAddress [7] = serializePacket [49] ilpAddress [7] :=
  ⟨claim_C7_malformed_decode.1 "!!" rfl,
   claim_C7_malformed_decode.2.1 2 0 [] (by decide),
   claim_C7_malformed_decode.2.2.1 (serializePacket [49] ilpAddress [7])
     ([49], ilpAddress, [7]) 3 (by rfl) (by decide),
   claim_C7_malformed_decode.2.2.2 (serializePacket [49] ilpAddress [7]) [49] ilpAddress [7]
     (by rfl)⟩

/-- Witness for C8 at concrete data: the empty request fails on
transactionId first, and the complete request assembles. -/
theorem claim_C8_missing_fields_witness :
    buildTransactionObject qrNoneEx prEx = .error (.MissingFieldError "transactionId") ∧
    (∃ t, buildTransactionObject qrEx prEx = .ok t) :=
  ⟨(claim_C8_missing_fields qrNoneEx prEx).1 "transactionId" rfl,
   (claim_C8_missing_fields qrEx prEx).2 rfl⟩

/-- Witness for C9 at the example inputs, whose requested amount 100 differs
from the committed transfer amount 99. -/
theorem claim_C9_amount_is_transferAmount_witness :
    prEx.transferAmount = some tEx.amount :=
  @claim_C9_amount_is_transferAmount qrEx prEx tEx rfl

/-- Witness for C10 at the example inputs. -/
theorem claim_C10_doubly_encoded_data_witness :
    ∃ am acct dataBytes jsonBytes,
      decodeIlpPacket comboEx.ilpPacket = .ok (am, acct, dataBytes) ∧
      dataBytes.map Char.ofNat =
        b64EncodeStd ((transactionObjectJson tEx).map Char.toNat) ∧
      b64DecodeStd (dataBytes.map Char.ofNat) = some jsonBytes ∧
      jsonBytes = (transactionObjectJson tEx).map Char.toNat ∧
      parseTransactionObject (jsonBytes.map Char.ofNat) = some tEx ∧
      parseTransactionObject (dataBytes.map Char.ofNat) = none :=
  @claim_C10_doubly_encoded_data secretEx qrEx prEx comboEx tEx rfl rfl rfl

end MojaloopIlp
